import Mathlib

/-!
Verification of the dispatch core of the llmio proxy gateway.

The definitions below are a shallow embedding of the Go sources:
  * `service/chat.go` — the `BalanceChat` retry loop and the eligibility
    query `ProvidersWithMetaBymodelsName`;
  * the cache key builder (`BuildCacheKey`, `normalizeAndHashRequestBody`,
    `hashMapStably`, `determineMode`, `ValidateCacheKey`);
  * the in-memory response cache (`MemoryCache`);
  * the style processors (`ProcesserOpenAI`, `ProcesserOpenAiRes`,
    `ProcesserAnthropic`) and their line scanner (`ScannerToken`);
  * the balancer strategy switch and the strategy constants.

External collaborators of the dispatcher (the balancer instance, the
cooldown manager, the key pool, the HTTP client and the database) are
abstracted as an oracle: a list of per-iteration outcomes.  The loop model
quantifies over every oracle, so theorems about it hold for every behavior
of those collaborators.  Machine integers are modelled as `Nat`/`Int`
(no overflow is relevant to the claims), wall-clock instants as `Nat`,
and durations in seconds as `ℚ`.
-/

namespace Cooldown

/-- Error category of the cooldown package (`cooldown.Category`). -/
inductive Category where
  | none
  | client
  | key
  | provider
deriving DecidableEq, Repr

/-- Modelled from the spec: `cooldown.ClassifyStatus` — the `service/cooldown`
package is not among the provided sources, only its callers are.  Section 4.1
classification table: 401/403/429 are `key` errors, 400/404/422 are `client`
errors, every other status reaching the classifier is a `provider` error. -/
def classifyStatus (status : Nat) : Category :=
  if status = 401 ∨ status = 403 ∨ status = 429 then .key
  else if status = 400 ∨ status = 404 ∨ status = 422 then .client
  else .provider

end Cooldown

namespace Dispatch

/-- One iteration of the `BalanceChat` retry loop, as prescribed by the
oracle that abstracts the balancer, the cooldown manager, the key pool and
the upstream HTTP client.  `id` is the association id returned by
`balancer.Pop()`; `keyDrawn` records whether `keyPool.Pick` succeeded. -/
inductive Outcome where
  /-- `ctx.Done()` fired before this iteration (chat.go line 110). -/
  | ctxCanceled
  /-- the whole-budget timer fired (chat.go line 112). -/
  | timerFired
  /-- `balancer.Pop()` returned an error (chat.go line 116). -/
  | popError
  /-- the popped id is missing from `ModelWithProviderMap` (chat.go line 121). -/
  | missingAssoc (id : Nat)
  /-- `cooldownManager.InCooldown` reported the association cooling (line 127). -/
  | inCooldown (id : Nat)
  /-- `providers.New` failed after the retry was consumed (chat.go line 140). -/
  | newProviderError (id : Nat)
  /-- `chatModel.BuildReq` failed (chat.go line 193). -/
  | buildReqError (id : Nat) (keyDrawn : Bool)
  /-- `client.Do` returned a transport error (chat.go line 217). -/
  | transportError (id : Nat) (keyDrawn : Bool)
  /-- `client.Do` returned a response with the given status (chat.go line 233). -/
  | upstreamStatus (id : Nat) (keyDrawn : Bool) (status : Nat)
  /-- status was 200 but `SaveChatLog` failed (chat.go line 261). -/
  | saveLogError (id : Nat) (keyDrawn : Bool)
deriving DecidableEq, Repr

/-- Observable side effects emitted by the retry loop, in program order. -/
inductive Effect where
  | balancerReduce (id : Nat)
  | balancerDelete (id : Nat)
  | cooldownOnError (cat : Cooldown.Category)
  | keyPoolOnError (cat : Cooldown.Category)
  | retryLogSend
  /-- an invocation of `client.Do`, i.e. one upstream HTTP call. -/
  | httpCall
  | bodyClose
  | saveLog
deriving DecidableEq, Repr

/-- Result of the `BalanceChat` dispatch. -/
inductive LoopResult where
  /-- a 200 response and its log id were returned to the handler. -/
  | ok
  | err (msg : String)
  /-- the oracle prescribed no further iterations (the run is a prefix). -/
  | oracleEnded
deriving DecidableEq, Repr

/-- The retry loop of `BalanceChat` (chat.go lines 106-271), with the loop
counters explicit: `retry` counts consumed attempts, `cds` is
`cooldownSkipped`.  Returns the dispatch result together with the trace of
emitted effects. -/
def runLoop (retries activeProviders : Nat) : Nat → Nat → List Outcome → LoopResult × List Effect
  | retry, _, [] =>
    if retry < retries then (.oracleEnded, []) else (.err "maximum retry attempts reached", [])
  | retry, cds, o :: rest =>
    if retry < retries then
      match o with
      | .ctxCanceled => (.err "context canceled", [])
      | .timerFired => (.err "retry time out", [])
      | .popError => (.err "balancer pop error", [])
      | .missingAssoc id =>
        -- inconsistent data: delete and continue, no retry consumed
        let p := runLoop retries activeProviders retry cds rest
        (p.1, .balancerDelete id :: p.2)
      | .inCooldown id =>
        -- cooldownSkipped++, Reduce, fail once every active provider was skipped
        if cds + 1 ≥ activeProviders then
          (.err "all providers are in cooldown", [.balancerReduce id])
        else
          let p := runLoop retries activeProviders retry (cds + 1) rest
          (p.1, .balancerReduce id :: p.2)
      | .newProviderError _ =>
        -- retry was consumed (retry++ precedes providers.New); hard return
        (.err "new provider error", [])
      | .buildReqError id keyDrawn =>
        let eff := [Effect.retryLogSend, .balancerDelete id, .cooldownOnError .provider]
          ++ (if keyDrawn then [Effect.keyPoolOnError .provider] else [])
        let p := runLoop retries activeProviders (retry + 1) 0 rest
        (p.1, eff ++ p.2)
      | .transportError id keyDrawn =>
        let eff := [Effect.httpCall, .retryLogSend, .balancerDelete id, .cooldownOnError .provider]
          ++ (if keyDrawn then [Effect.keyPoolOnError .provider] else [])
        let p := runLoop retries activeProviders (retry + 1) 0 rest
        (p.1, eff ++ p.2)
      | .upstreamStatus id keyDrawn status =>
        if status ≠ 200 then
          let cat := Cooldown.classifyStatus status
          let eff := [Effect.httpCall, .retryLogSend, .cooldownOnError cat]
            ++ (if keyDrawn then [Effect.keyPoolOnError cat] else [])
            ++ [if cat = .key then Effect.balancerReduce id else Effect.balancerDelete id,
                Effect.bodyClose]
          let p := runLoop retries activeProviders (retry + 1) 0 rest
          (p.1, eff ++ p.2)
        else
          (.ok, [Effect.httpCall, .saveLog])
      | .saveLogError _ _ =>
        -- SaveChatLog failed after a 200: close the body and return the error
        (.err "save chat log error", [Effect.httpCall, .bodyClose])
    else
      (.err "maximum retry attempts reached", [])

/-- Clamping of the retry budget (chat.go lines 95-98). -/
def clampRetries (maxRetry : Int) : Nat :=
  if maxRetry ≤ 0 then 1 else maxRetry.toNat

/-- The `BalanceChat` dispatch (chat.go lines 95-271): clamp the retry
budget, derive `activeProviders` from the weight map (falling back to the
association map), reject an empty pool, then run the retry loop. -/
def balanceChatModel (maxRetry : Int) (weightItemCount mapCount : Nat)
    (outs : List Outcome) : LoopResult × List Effect :=
  let retries := clampRetries maxRetry
  let active := if weightItemCount = 0 then mapCount else weightItemCount
  if active = 0 then (.err "no active providers", [])
  else runLoop retries active 0 0 outs

/-- Number of upstream HTTP calls (`client.Do` invocations) in a trace. -/
def countUpstreamCalls (tr : List Effect) : Nat :=
  (tr.filter (fun e => e = Effect.httpCall)).length

end Dispatch

namespace Consts

/-- Style constants (package `consts`). -/
def StyleOpenAI : String := "openai"

def StyleOpenAIRes : String := "openai-res"

def StyleAnthropic : String := "anthropic"

/-- Balancer strategy names (package `consts`). -/
def BalancerLottery : String := "lottery"

def BalancerRotor : String := "rotor"

def BalancerSmoothWeightedRR : String := "smooth_weighted_rr"

def BalancerConsistentHash : String := "consistent_hash"

def BalancerDefault : String := BalancerLottery

end Consts

namespace Balancers

/-- Which balancer constructor is invoked.  `consistentHash` stands for
`balancers.NewConsistentHash`, mentioned by the strategy constants but not
selected by any case of the dispatcher switch. -/
inductive Kind where
  | lottery
  | rotor
  | smoothWeightedRR
  | consistentHash
deriving DecidableEq, Repr

end Balancers

namespace Dispatch

/-- The strategy switch of `BalanceChat` (chat.go lines 70-80): `lottery`
and the empty string share a case, and the `default` case also constructs a
lottery balancer. -/
def selectBalancer (strategy : String) : Balancers.Kind :=
  if strategy = Consts.BalancerSmoothWeightedRR then .smoothWeightedRR
  else if strategy = Consts.BalancerRotor then .rotor
  else if strategy = Consts.BalancerLottery ∨ strategy = "" then .lottery
  else .lottery

end Dispatch

namespace Eligibility

/-- Row of the `models` table (models/model.go `Model`). -/
structure ModelRow where
  id : Nat
  name : String
  maxRetry : Int
  timeOut : Int
  ioLog : Option Bool
  strategy : String
deriving DecidableEq, Repr

/-- Row of the `model_with_providers` table (models/model.go
`ModelWithProvider`); the nullable boolean columns are compared against
`true` by the query, so a missing value behaves as `false`. -/
structure AssocRow where
  id : Nat
  modelId : Nat
  providerId : Nat
  providerModel : String
  toolCall : Bool
  structuredOutput : Bool
  image : Bool
  status : Bool
  weight : Int
deriving DecidableEq, Repr

/-- Row of the `providers` table (models/model.go `Provider`). -/
structure ProviderRow where
  id : Nat
  name : String
  ptype : String
deriving DecidableEq, Repr

/-- The relational store read by the eligibility query. -/
structure DBState where
  models : List ModelRow
  assocs : List AssocRow
  providers : List ProviderRow
deriving DecidableEq, Repr

/-- Capability requirements extracted from the parsed request. -/
structure BeforeQ where
  model : String
  toolCall : Bool
  structuredOutput : Bool
  image : Bool
deriving DecidableEq, Repr

/-- Result of the eligibility query (`service.ProvidersWithMeta`). -/
structure PWMeta where
  assocIds : List Nat
  weightItems : List (Nat × Int)
  providerIds : List Nat
  maxRetry : Int
  timeOut : Int
  ioLog : Bool
  strategy : String
deriving DecidableEq, Repr

/-- The conjunctive WHERE chain of chat.go lines 438-450: enabled
associations of the model, intersected with each capability the request
requires. -/
def capabilityFilter (before : BeforeQ) (modelId : Nat) (a : AssocRow) : Bool :=
  a.modelId == modelId && a.status
    && (!before.toolCall || a.toolCall)
    && (!before.structuredOutput || a.structuredOutput)
    && (!before.image || a.image)

/-- `ProvidersWithMetaBymodelsName` (chat.go lines 421-498).  The model row
is found by name; the `not provider for model` error is raised when the
capability filter leaves no association; afterwards providers are filtered
by `type = style` and the weight map keeps only associations whose provider
survived that filter. -/
def providersWithMetaByModelsName (db : DBState) (style : String) (before : BeforeQ) :
    Except String PWMeta :=
  match db.models.find? (fun m => m.name == before.model) with
  | none => .error ("not found model " ++ before.model)
  | some model =>
    let assocs := db.assocs.filter (capabilityFilter before model.id)
    if assocs.isEmpty then
      .error ("not provider for model " ++ before.model)
    else
      let provs := db.providers.filter
        (fun p => (assocs.map (fun a => a.providerId)).contains p.id && p.ptype == style)
      let weightItems := assocs.filterMap
        (fun a => if provs.any (fun p => p.id == a.providerId) then some (a.id, a.weight) else none)
      .ok { assocIds := assocs.map (fun a => a.id)
            weightItems := weightItems
            providerIds := provs.map (fun p => p.id)
            maxRetry := model.maxRetry
            timeOut := model.timeOut
            ioLog := model.ioLog.getD false
            strategy := model.strategy }

end Eligibility

namespace Json

/-- Parsed JSON values, the image of `json.Unmarshal` into
`map[string]interface{}` values.  Go maps are unordered; a nested object is
kept with its fields in the sorted order in which `json.Marshal` emits map
keys (the top-level object of a request body is instead handled by
`goLookup` and `sortByKey` below).  Numbers are idealized as rationals. -/
inductive Jval where
  | jnull
  | jbool (b : Bool)
  | jnum (q : ℚ)
  | jstr (s : String)
  | jarr (elems : List Jval)
  | jobj (fields : List (String × Jval))

/-- Hexadecimal digit, for control-character escapes. -/
def hexDigit (n : Nat) : Char :=
  if n < 10 then Char.ofNat (48 + n) else Char.ofNat (87 + n)

/-- Escaping of one character by the Go JSON encoder (which by default also
escapes the HTML-sensitive characters). -/
def escapeChar (c : Char) : String :=
  if c = '"' then "\\\""
  else if c = '\\' then "\\\\"
  else if c = '\n' then "\\n"
  else if c = '\r' then "\\r"
  else if c = '\t' then "\\t"
  else if c = '<' then "\\u003c"
  else if c = '>' then "\\u003e"
  else if c = '&' then "\\u0026"
  else if c.toNat < 32 then
    String.mk ['\\', 'u', '0', '0', hexDigit (c.toNat / 16), hexDigit (c.toNat % 16)]
  else String.singleton c

/-- A JSON string literal. -/
def quoteString (s : String) : String :=
  "\"" ++ String.join (s.toList.map escapeChar) ++ "\""

mutual

/-- Serialization of a value by `json.Marshal` (object keys canonical). -/
def serializeJval : Jval → String
  | .jnull => "null"
  | .jbool true => "true"
  | .jbool false => "false"
  | .jnum q => toString q
  | .jstr s => quoteString s
  | .jarr elems => "[" ++ serializeElems elems ++ "]"
  | .jobj fields => "\x7b" ++ serializeFields fields ++ "\x7d"

/-- Comma-separated serialization of array elements (order preserved). -/
def serializeElems : List Jval → String
  | [] => ""
  | [x] => serializeJval x
  | x :: y :: rest => serializeJval x ++ "," ++ serializeElems (y :: rest)

/-- Comma-separated serialization of object fields. -/
def serializeFields : List (String × Jval) → String
  | [] => ""
  | [(k, v)] => quoteString k ++ ":" ++ serializeJval v
  | (k, v) :: f :: rest => quoteString k ++ ":" ++ serializeJval v ++ "," ++ serializeFields (f :: rest)

end

end Json

namespace CacheKeyBuilder

open Json

/-- Go map indexing `value, exists := raw[field]` on the map produced by
`json.Unmarshal` from an object whose fields appear in the given textual
order.  A Go map is unordered, so it is modelled by its lookup function;
`json.Unmarshal` lets a later duplicate key overwrite an earlier one, hence
the last binding wins. -/
def goLookup : List (String × Jval) → String → Option Jval
  | [], _ => none
  | (k0, v0) :: rest, k =>
    match goLookup rest k with
    | some v => some v
    | none => if k = k0 then some v0 else none

/-- The whitelist of semantically relevant fields (`semanticFields` in
`normalizeAndHashRequestBody`). -/
def semanticFields : List String :=
  ["model", "messages", "input", "stream",
   "max_tokens", "max_tokens_to_sample", "max_completion_tokens", "n", "stop", "stop_sequences",
   "temperature", "top_p", "top_k", "seed", "presence_penalty", "frequency_penalty",
   "response_format", "tool_choice", "tool_choice_type", "tools", "function_call", "functions",
   "logprobs", "top_logprobs", "logit_bias",
   "system", "user", "metadata", "parallel_tool_calls", "reasoning_effort", "modalities",
   "audio", "vision"]

/-- Sorting of the object keys (`sort.Strings(keys)` in `hashMapStably`;
`json.Marshal` emits map keys in exactly this sorted order). -/
def sortByKey (data : List (String × Jval)) : List (String × Jval) :=
  data.mergeSort (fun a b => a.1 ≤ b.1)

/-- `hashMapStably`: serialize the map with its keys in sorted order and
digest the bytes.  The SHA-256 hex digest is abstracted as the function
argument `sha`; the claims about the builder depend only on the digest
being a function of the serialized bytes. -/
def hashMapStably (sha : String → String) (data : List (String × Jval)) : String :=
  sha (serializeJval (.jobj (sortByKey data)))

/-- The whitelist projection loop of `normalizeAndHashRequestBody`: for
each whitelisted field present in the raw map, bind it in the `normalized`
map (represented as its bindings, gathered in whitelist order — the order
is irrelevant because `hashMapStably` sorts the keys). -/
def projectWhitelist (raw : List (String × Jval)) : List (String × Jval) :=
  semanticFields.foldl
    (fun acc field =>
      match goLookup raw field with
      | some v => acc ++ [(field, v)]
      | none => acc) []

/-- `normalizeAndHashRequestBody` on a body that parsed as a JSON object
with the given textual field list: keep only whitelisted fields, then hash
stably. -/
def normalizeAndHashRequestBody (sha : String → String) (rawFields : List (String × Jval)) :
    String :=
  hashMapStably sha (projectWhitelist rawFields)

/-- Result of `json.Unmarshal` of the raw request body into a map: either
not a JSON object (unmarshal error) or an object with fields in textual
order. -/
inductive RawBody where
  | notObject
  | objectOf (fields : List (String × Jval))

/-- `cache.Scope`. -/
structure Scope where
  authKeyID : Nat
  style : String
  model : String
  mode : String
  stream : Bool
deriving DecidableEq, Repr

/-- `cache.Key`. -/
structure Key where
  scope : Scope
  bodyHash : String
deriving DecidableEq, Repr

/-- `determineMode`: map the style to the mode label. -/
def determineMode (style : String) : String :=
  if style = Consts.StyleOpenAI then "chat_completions"
  else if style = Consts.StyleOpenAIRes then "responses"
  else if style = Consts.StyleAnthropic then "messages"
  else style

/-- The parsed-request fields consumed by the builder. -/
structure BeforeCK where
  model : String
  stream : Bool
  raw : RawBody

/-- `BuildCacheKey`.  The context is modelled as `Option Nat`: `none` when
`ctx.Value(ContextKeyAuthKeyID)` holds no `uint` (the type assertion fails),
`some n` when it holds the `uint` value `n` — note that the assertion
succeeds for the value `uint(0)` as well. -/
def buildCacheKey (sha : String → String) (ctxAuthKeyID : Option Nat) (style : String)
    (before : BeforeCK) : Option Key :=
  if before.stream then none
  else
    match ctxAuthKeyID with
    | none => none
    | some authKeyID =>
      match before.raw with
      | .notObject => none
      | .objectOf fields =>
        some { scope := { authKeyID := authKeyID
                          style := style
                          model := before.model
                          mode := determineMode style
                          stream := before.stream }
               bodyHash := normalizeAndHashRequestBody sha fields }

/-- `ValidateCacheKey` (defined next to the builder; the dispatch path never
invokes it). -/
def validateCacheKey (key : Key) : Except String Unit :=
  if key.scope.authKeyID = 0 then .error "AuthKeyID cannot be zero"
  else if key.scope.style = "" then .error "Style cannot be empty"
  else if key.scope.model = "" then .error "Model cannot be empty"
  else if key.bodyHash = "" then .error "BodyHash cannot be empty"
  else .ok ()

end CacheKeyBuilder

namespace Cache

/-- `cache.Value` (audit fields irrelevant to the claims are kept to a
representative subset; the body is its byte string).  `createdAt` and
`expiresAt` are instants in nanoseconds; `0` is the Go zero time. -/
structure ValueM where
  statusCode : Nat
  body : String
  createdAt : Nat
  expiresAt : Nat
  sourceLogID : Nat
  shared : Bool
deriving DecidableEq, Repr

/-- `cache.ReadPolicy`. -/
inductive ReadPolicy where
  | clone
  | shareReadOnly
deriving DecidableEq, Repr

/-- `cache.MemoryCache`.  The Go map is determinized as an association list
in insertion order; Go map iteration order is unspecified, which matters
only for tie-breaking in `evictOldestLocked`. -/
structure MemoryCacheM where
  data : List (String × ValueM)
  maxEntries : Nat
  readPolicy : ReadPolicy
  shareThreshold : Int
  hitCount : Nat
  missCount : Nat
deriving DecidableEq, Repr

/-- `cache.CacheStats`. -/
structure CacheStats where
  entries : Nat
  hitCount : Nat
  missCount : Nat
deriving DecidableEq, Repr

/-- `cache.DefaultMaxEntries`. -/
def DefaultMaxEntries : Nat := 1024

/-- `cache.DefaultTTL` (5 minutes), in nanoseconds. -/
def DefaultTTL : Int := 300000000000

/-- `NewMemoryCacheWithOptions`. -/
def newMemoryCacheWithOptions (maxEntries : Int) (readPolicy : ReadPolicy)
    (shareThreshold : Int) : MemoryCacheM :=
  { data := []
    maxEntries := if maxEntries ≤ 0 then DefaultMaxEntries else maxEntries.toNat
    readPolicy := readPolicy
    shareThreshold := shareThreshold
    hitCount := 0
    missCount := 0 }

/-- `NewMemoryCache`. -/
def newMemoryCache (maxEntries : Int) : MemoryCacheM :=
  newMemoryCacheWithOptions maxEntries .clone 0

/-- Go map lookup. -/
def assocGet : List (String × ValueM) → String → Option ValueM
  | [], _ => none
  | (k0, v0) :: rest, k => if k = k0 then some v0 else assocGet rest k

/-- Go map `delete`. -/
def assocDelete (data : List (String × ValueM)) (k : String) : List (String × ValueM) :=
  data.filter (fun kv => kv.1 != k)

/-- Go map assignment: overwrite in place or append. -/
def assocSet : List (String × ValueM) → String → ValueM → List (String × ValueM)
  | [], k, v => [(k, v)]
  | (k0, v0) :: rest, k, v =>
    if k = k0 then (k, v) :: rest else (k0, v0) :: assocSet rest k v

/-- The expiry test of `Get`: `!ExpiresAt.IsZero() && now.After(ExpiresAt)`. -/
def isExpiredAt (now : Nat) (v : ValueM) : Bool :=
  v.expiresAt != 0 && decide (v.expiresAt < now)

/-- `MemoryCache.Get` at the instant `now`, on an already serialized map
key: misses bump `missCount`, an expired entry is deleted (double-checked)
and misses, otherwise `hitCount` is bumped and the value is returned either
as a shared reference or as a clone with `Shared=false`. -/
def getM (c : MemoryCacheM) (now : Nat) (mapKey : String) : Option ValueM × MemoryCacheM :=
  match assocGet c.data mapKey with
  | none => (none, { c with missCount := c.missCount + 1 })
  | some e =>
    if isExpiredAt now e then
      (none, { c with data := assocDelete c.data mapKey, missCount := c.missCount + 1 })
    else
      let c1 := { c with hitCount := c.hitCount + 1 }
      let shareAllowed := c.readPolicy = ReadPolicy.shareReadOnly
      let bigEnough := c.shareThreshold ≤ 0 ∨ c.shareThreshold ≤ (e.body.length : Int)
      if shareAllowed ∧ bigEnough then (some { e with shared := true }, c1)
      else (some { e with shared := false }, c1)

/-- First key holding the minimal `createdAt` (the Go loop keeps the first
strict minimum in iteration order). -/
def oldestKeyOf : List (String × ValueM) → Option (String × Nat)
  | [] => none
  | (k, v) :: rest =>
    match oldestKeyOf rest with
    | none => some (k, v.createdAt)
    | some (k2, t2) => if v.createdAt ≤ t2 then some (k, v.createdAt) else some (k2, t2)

/-- `evictOldestLocked`. -/
def evictOldest (data : List (String × ValueM)) : List (String × ValueM) :=
  match oldestKeyOf data with
  | none => data
  | some (k, _) => assocDelete data k

/-- `MemoryCache.Set` at the instant `now` (a `nil` value is rejected
before this point): stamp `createdAt` if zero, clamp a non-positive TTL to
the default, stamp `expiresAt`, evict the oldest entry at capacity, then
store. -/
def setM (c : MemoryCacheM) (now : Nat) (mapKey : String) (value : ValueM) (ttl : Int) :
    MemoryCacheM :=
  let v1 := if value.createdAt = 0 then { value with createdAt := now } else value
  let ttl1 := if ttl ≤ 0 then DefaultTTL else ttl
  let v2 := { v1 with expiresAt := now + ttl1.toNat }
  let c1 :=
    if 0 < c.maxEntries ∧ c.maxEntries ≤ c.data.length then
      { c with data := evictOldest c.data }
    else c
  { c1 with data := assocSet c1.data mapKey v2 }

/-- `MemoryCache.Stats`: `Entries` is the map length. -/
def statsM (c : MemoryCacheM) : CacheStats :=
  { entries := c.data.length, hitCount := c.hitCount, missCount := c.missCount }

/-- Number of stored entries that are not expired at `now`, i.e. the
entries on which `Get` would currently report a hit. -/
def liveCount (c : MemoryCacheM) (now : Nat) : Nat :=
  (c.data.filter (fun kv => !isExpiredAt now kv.2)).length

/-- `makeMapKey`. -/
def makeMapKey (key : CacheKeyBuilder.Key) : String :=
  toString key.scope.authKeyID ++ "|" ++ key.scope.style ++ "|" ++ key.scope.model ++ "|"
    ++ key.scope.mode ++ "|" ++ (cond key.scope.stream "true" "false") ++ "|" ++ key.bodyHash

end Cache

namespace Processors

/-- Go `float64` results of dividing finite values, idealized with exact
rationals: rounding is immaterial to the claims, the special values are
not. -/
inductive GoFloat where
  | fin (q : ℚ)
  | posInf
  | negInf
  | nan
deriving DecidableEq, Repr

/-- IEEE-754 division of finite operands as performed by Go. -/
def goDiv (x y : ℚ) : GoFloat :=
  if y = 0 then
    if 0 < x then .posInf else if x < 0 then .negInf else .nan
  else .fin (x / y)

/-- Telemetry fields of the `models.ChatLog` rows the processors build.
Instants and durations are in seconds, as exact rationals. -/
structure Telemetry where
  firstChunkTime : ℚ
  chunkTime : ℚ
  totalTokens : Int
  tps : GoFloat
  size : Nat
deriving DecidableEq, Repr

/-- The telemetry assembled by `ProcesserOpenAI` (part_003 lines 148-156):
`chunkTime = elapsed − firstChunkTime` where `elapsed` is `time.Since(start)`
at return, and `Tps = float64(TotalTokens) / chunkTime.Seconds()` with no
guard on the denominator. -/
def processerOpenAITelemetry (totalTokens : Int) (firstChunkTime elapsed : ℚ) (size : Nat) :
    Telemetry :=
  let chunkTime := elapsed - firstChunkTime
  { firstChunkTime := firstChunkTime
    chunkTime := chunkTime
    totalTokens := totalTokens
    tps := goDiv totalTokens chunkTime
    size := size }

/-- The telemetry assembled by `ProcesserOpenAiRes` (part_003 lines
249-264): same unguarded quotient as `ProcesserOpenAI`. -/
def processerOpenAiResTelemetry (totalTokens : Int) (firstChunkTime elapsed : ℚ) (size : Nat) :
    Telemetry :=
  let chunkTime := elapsed - firstChunkTime
  { firstChunkTime := firstChunkTime
    chunkTime := chunkTime
    totalTokens := totalTokens
    tps := goDiv totalTokens chunkTime
    size := size }

/-- The telemetry assembled by `ProcesserAnthropic` (part_003 lines
326-347): `totalTokens = inputTokens + outputTokens`, and `tps` stays `0`
unless `chunkTime.Seconds() > 0`. -/
def processerAnthropicTelemetry (inputTokens outputTokens : Int) (firstChunkTime elapsed : ℚ)
    (size : Nat) : Telemetry :=
  let chunkTime := elapsed - firstChunkTime
  let totalTokens := inputTokens + outputTokens
  { firstChunkTime := firstChunkTime
    chunkTime := chunkTime
    totalTokens := totalTokens
    tps := if 0 < chunkTime then goDiv totalTokens chunkTime else .fin 0
    size := size }

/-- `bufio.ScanLines` split points: tokens are separated by a newline, the
final newline-less remainder is still a token. -/
def splitNewlines : List Char → List (List Char)
  | [] => [[]]
  | c :: cs =>
    match splitNewlines cs with
    | [] => [[]]
    | line :: rest => if c = '\n' then [] :: line :: rest else (c :: line) :: rest

/-- `bufio.ScanLines` drops one trailing carriage return from a token
(its `dropCR` helper: cut the last byte when it is a CR). -/
def dropTrailingCR (line : List Char) : List Char :=
  if line.getLast? = some '\r' then line.dropLast else line

/-- `ScannerToken` (part_003 lines 350-362) applied to a whole body: the
scanned lines with blank lines skipped, in order. -/
def scannerTokens (body : String) : List String :=
  ((splitNewlines body.toList).map (fun l => String.mk (dropTrailingCR l))).filter
    (fun s => s != "")

/-- The non-stream branch shared by the three processors (part_003 lines
111-114, 215-218 and 289-297): the first non-empty line becomes the whole
recorded output `OfString` (and the only text from which usage is
extracted), and the loop breaks immediately after it. -/
def nonStreamCapturedOutput (body : String) : String :=
  (scannerTokens body).headD ""

end Processors

theorem countUpstreamCalls_cons (e : Dispatch.Effect) (tr : List Dispatch.Effect) :
    Dispatch.countUpstreamCalls (e :: tr) =
      (if e = Dispatch.Effect.httpCall then 1 else 0) + Dispatch.countUpstreamCalls tr := by
  by_cases h : e = Dispatch.Effect.httpCall <;>
    simp [Dispatch.countUpstreamCalls, List.filter_cons, h, Nat.add_comm]

theorem countUpstreamCalls_append (a b : List Dispatch.Effect) :
    Dispatch.countUpstreamCalls (a ++ b) =
      Dispatch.countUpstreamCalls a + Dispatch.countUpstreamCalls b := by
  simp [Dispatch.countUpstreamCalls, List.filter_append]

theorem countUpstreamCalls_reduceOrDelete (c : Prop) [Decidable c] (id : Nat)
    (tr : List Dispatch.Effect) :
    Dispatch.countUpstreamCalls
        ((if c then Dispatch.Effect.balancerReduce id else Dispatch.Effect.balancerDelete id) :: tr) =
      Dispatch.countUpstreamCalls tr := by
  split <;> simp [countUpstreamCalls_cons]

theorem reduceOrDelete_ne_httpCall (c : Prop) [Decidable c] (id : Nat) :
    ((if c then Dispatch.Effect.balancerReduce id else Dispatch.Effect.balancerDelete id) =
        Dispatch.Effect.httpCall) ↔ False := by
  split <;> simp

theorem runLoop_calls_le (retries active : Nat) :
    ∀ (outs : List Dispatch.Outcome) (retry cds : Nat),
      Dispatch.countUpstreamCalls (Dispatch.runLoop retries active retry cds outs).2 ≤
        retries - retry := by
  intro outs
  induction outs with
  | nil =>
    intro retry cds
    by_cases h : retry < retries <;> simp [Dispatch.runLoop, h, Dispatch.countUpstreamCalls]
  | cons o rest ih =>
    intro retry cds
    by_cases h : retry < retries
    · cases o with
      | ctxCanceled => simp [Dispatch.runLoop, h, Dispatch.countUpstreamCalls]
      | timerFired => simp [Dispatch.runLoop, h, Dispatch.countUpstreamCalls]
      | popError => simp [Dispatch.runLoop, h, Dispatch.countUpstreamCalls]
      | missingAssoc id =>
        have hr := ih retry cds
        simp only [Dispatch.runLoop, if_pos h]
        simpa [countUpstreamCalls_cons] using hr
      | inCooldown id =>
        by_cases hc : active ≤ cds + 1
        · simp [Dispatch.runLoop, h, hc, Dispatch.countUpstreamCalls]
        · have hr := ih retry (cds + 1)
          simp only [Dispatch.runLoop, if_pos h, ge_iff_le, if_neg hc]
          simpa [countUpstreamCalls_cons] using hr
      | newProviderError id => simp [Dispatch.runLoop, h, Dispatch.countUpstreamCalls]
      | buildReqError id kd =>
        have hr := ih (retry + 1) 0
        simp only [Dispatch.runLoop, if_pos h]
        cases kd <;>
          simp [countUpstreamCalls_cons, countUpstreamCalls_append] <;> omega
      | transportError id kd =>
        have hr := ih (retry + 1) 0
        simp only [Dispatch.runLoop, if_pos h]
        cases kd <;>
          simp [countUpstreamCalls_cons, countUpstreamCalls_append] <;> omega
      | upstreamStatus id kd status =>
        by_cases hs : status = 200
        · simp [Dispatch.runLoop, h, hs, countUpstreamCalls_cons, Dispatch.countUpstreamCalls]
          omega
        · have hr := ih (retry + 1) 0
          simp only [Dispatch.runLoop, if_pos h, ne_eq, hs, not_false_eq_true, if_pos]
          cases kd <;>
            simp [countUpstreamCalls_cons, countUpstreamCalls_append,
              reduceOrDelete_ne_httpCall] <;> omega
      | saveLogError id kd =>
        simp [Dispatch.runLoop, h, countUpstreamCalls_cons, Dispatch.countUpstreamCalls]
        omega
    · simp [Dispatch.runLoop, h, Dispatch.countUpstreamCalls]

/-- C1: for every dispatch via `BalanceChat` — over every behavior of the
balancer, the cooldown manager, the key pool and the upstream — the number
of upstream HTTP calls issued is at most `max(MaxRetry, 1)`: a `MaxRetry`
of 0 or less is clamped to 1, each attempt consumes one retry, and the loop
stops at the clamped bound. -/
theorem balanceChat_upstream_calls_bounded (maxRetry : Int) (weightItemCount mapCount : Nat)
    (outs : List Dispatch.Outcome) :
    Dispatch.countUpstreamCalls (Dispatch.balanceChatModel maxRetry weightItemCount mapCount outs).2 ≤
      (max maxRetry 1).toNat := by
  have hclamp : Dispatch.clampRetries maxRetry = (max maxRetry 1).toNat := by
    unfold Dispatch.clampRetries
    rcases max_cases maxRetry 1 with ⟨he, _⟩ | ⟨he, _⟩ <;> rw [he] <;> split <;> omega
  rw [← hclamp]
  unfold Dispatch.balanceChatModel
  set active := if weightItemCount = 0 then mapCount else weightItemCount with hact
  by_cases h : active = 0
  · simp [h, Dispatch.countUpstreamCalls]
  · rw [if_neg h]
    simpa using runLoop_calls_le (Dispatch.clampRetries maxRetry) active outs 0 0

theorem runLoop_cooldown_only (retries active : Nat) :
    ∀ (ids : List Nat) (retry cds : Nat), retry < retries → cds < active →
      active ≤ cds + ids.length →
      Dispatch.runLoop retries active retry cds (ids.map Dispatch.Outcome.inCooldown) =
        (Dispatch.LoopResult.err "all providers are in cooldown",
          (ids.take (active - cds)).map Dispatch.Effect.balancerReduce) := by
  intro ids
  induction ids with
  | nil => intro retry cds _ h1 h2; simp at h2; omega
  | cons id tl ih =>
    intro retry cds hretry h1 h2
    simp only [List.map_cons, Dispatch.runLoop, if_pos hretry, ge_iff_le]
    by_cases hc : active ≤ cds + 1
    · have : active - cds = 1 := by omega
      simp [hc, this]
    · have htk : active - cds = (active - (cds + 1)) + 1 := by omega
      rw [if_neg hc, ih retry (cds + 1) hretry (by omega) (by simp at h2 ⊢; omega)]
      simp [htk]

theorem countUpstreamCalls_map_reduce (l : List Nat) :
    Dispatch.countUpstreamCalls (l.map Dispatch.Effect.balancerReduce) = 0 := by
  induction l with
  | nil => rfl
  | cons x tl ih => simpa [countUpstreamCalls_cons] using ih

/-- C2 counterexample: in the all-cooldown failure case the dispatcher does
not fail with the message `all providers in cooldown` claimed by the spec;
the error it returns is `all providers are in cooldown`. -/
theorem balanceChat_cooldown_message_counterexample :
    (Dispatch.balanceChatModel 3 1 1 [Dispatch.Outcome.inCooldown 5]).1 =
        Dispatch.LoopResult.err "all providers are in cooldown" ∧
      (Dispatch.balanceChatModel 3 1 1 [Dispatch.Outcome.inCooldown 5]).1 ≠
        Dispatch.LoopResult.err "all providers in cooldown" := by
  constructor
  · rfl
  · decide

/-- C2 amended: when the cooldown manager reports the popped association in
cooldown the dispatcher calls `balancer.Reduce` on it, consumes no retry,
and counts the skip; once the skip counter reaches the number of active
providers it fails — with the message `all providers are in cooldown`
(not `all providers in cooldown` as the spec writes) — and a run that only
ever pops cooling associations performs exactly one `Reduce` per skipped
association and issues no upstream HTTP call. -/
theorem balanceChat_all_cooldown (retries active retry : Nat) (ids : List Nat)
    (hretry : retry < retries) (hactive : 0 < active) (hlen : active ≤ ids.length) :
    Dispatch.runLoop retries active retry 0 (ids.map Dispatch.Outcome.inCooldown) =
        (Dispatch.LoopResult.err "all providers are in cooldown",
          (ids.take active).map Dispatch.Effect.balancerReduce) ∧
      Dispatch.countUpstreamCalls
        (Dispatch.runLoop retries active retry 0 (ids.map Dispatch.Outcome.inCooldown)).2 = 0 := by
  have h := runLoop_cooldown_only retries active ids retry 0 hretry hactive (by simpa using hlen)
  rw [Nat.sub_zero] at h
  exact ⟨h, by rw [h]; exact countUpstreamCalls_map_reduce _⟩

/-- C2 witness: a concrete all-cooldown run with two active providers. -/
theorem balanceChat_all_cooldown_witness :
    Dispatch.runLoop 1 2 0 0 ([4, 5, 6].map Dispatch.Outcome.inCooldown) =
        (Dispatch.LoopResult.err "all providers are in cooldown",
          ([4, 5, 6].take 2).map Dispatch.Effect.balancerReduce) ∧
      Dispatch.countUpstreamCalls
        (Dispatch.runLoop 1 2 0 0 ([4, 5, 6].map Dispatch.Outcome.inCooldown)).2 = 0 :=
  balanceChat_all_cooldown 1 2 0 [4, 5, 6] (by decide) (by decide) (by decide)

/-- C3: for every upstream response with status other than 200, the
dispatcher classifies the status, applies the cooldown `OnError` with that
category, applies the key-pool `OnError` with the same category exactly
when a key was drawn, then demotes via `balancer.Reduce` precisely when the
category is `key` (which happens exactly for 401, 403 and 429) and evicts
via `balancer.Delete` for every other category, closes the response body,
and continues the retry loop rather than returning. -/
theorem balanceChat_non200_classify_and_continue (retries active retry cds id : Nat)
    (keyDrawn : Bool) (status : Nat) (rest : List Dispatch.Outcome)
    (hretry : retry < retries) (hstatus : status ≠ 200) :
    Dispatch.runLoop retries active retry cds
        (Dispatch.Outcome.upstreamStatus id keyDrawn status :: rest) =
      ((Dispatch.runLoop retries active (retry + 1) 0 rest).1,
        [Dispatch.Effect.httpCall, Dispatch.Effect.retryLogSend,
            Dispatch.Effect.cooldownOnError (Cooldown.classifyStatus status)]
          ++ (if keyDrawn then
                [Dispatch.Effect.keyPoolOnError (Cooldown.classifyStatus status)] else [])
          ++ [if Cooldown.classifyStatus status = Cooldown.Category.key then
                Dispatch.Effect.balancerReduce id else Dispatch.Effect.balancerDelete id,
              Dispatch.Effect.bodyClose]
          ++ (Dispatch.runLoop retries active (retry + 1) 0 rest).2) ∧
      (Cooldown.classifyStatus status = Cooldown.Category.key ↔
        status = 401 ∨ status = 403 ∨ status = 429) := by
  constructor
  · simp [Dispatch.runLoop, hretry, hstatus]
  · unfold Cooldown.classifyStatus
    split_ifs with h1 h2 <;> simp_all

/-- C3 witness: a 503 response with a drawn key, classified `provider`. -/
theorem balanceChat_non200_witness :
    Cooldown.classifyStatus 503 = Cooldown.Category.key ↔
      (503 : Nat) = 401 ∨ (503 : Nat) = 403 ∨ (503 : Nat) = 429 :=
  (balanceChat_non200_classify_and_continue 1 1 0 0 7 true 503 [] (by decide) (by decide)).2

/-- C10: for every strategy string other than `smooth_weighted_rr` and
`rotor` — including the documented `consistent_hash` policy and any unknown
string — the dispatcher switch constructs a lottery balancer, so a
consistent-hash balancer is never instantiated by the dispatcher. -/
theorem dispatcher_never_consistent_hash (strategy : String)
    (h1 : strategy ≠ Consts.BalancerSmoothWeightedRR) (h2 : strategy ≠ Consts.BalancerRotor) :
    Dispatch.selectBalancer strategy = Balancers.Kind.lottery ∧
      Dispatch.selectBalancer strategy ≠ Balancers.Kind.consistentHash := by
  unfold Dispatch.selectBalancer
  rw [if_neg h1, if_neg h2]
  refine ⟨?_, ?_⟩ <;> split <;> decide

/-- C10 witness: the `consistent_hash` strategy string itself yields a
lottery balancer. -/
theorem dispatcher_never_consistent_hash_witness :
    Dispatch.selectBalancer Consts.BalancerConsistentHash = Balancers.Kind.lottery ∧
      Dispatch.selectBalancer Consts.BalancerConsistentHash ≠ Balancers.Kind.consistentHash :=
  dispatcher_never_consistent_hash Consts.BalancerConsistentHash (by decide) (by decide)

theorem goLookup_perm : ∀ {l1 l2 : List (String × Json.Jval)}, l1.Perm l2 →
    (l1.map Prod.fst).Nodup → ∀ k, CacheKeyBuilder.goLookup l1 k = CacheKeyBuilder.goLookup l2 k := by
  intro l1 l2 hp
  induction hp with
  | nil => intro _ _; rfl
  | cons x hp ih =>
    intro hnd k
    simp only [List.map_cons, List.nodup_cons] at hnd
    simp only [CacheKeyBuilder.goLookup, ih hnd.2 k]
  | swap x y l =>
    intro hnd k
    have hxy : y.1 ≠ x.1 := by
      simp only [List.map_cons, List.nodup_cons, List.mem_cons] at hnd
      tauto
    cases hl : CacheKeyBuilder.goLookup l k <;>
      by_cases h1 : k = x.1 <;> by_cases h2 : k = y.1 <;>
        simp_all [CacheKeyBuilder.goLookup]
  | trans h1 _ ih1 ih2 =>
    intro hnd k
    rw [ih1 hnd k, ih2 ((h1.map Prod.fst).nodup hnd) k]

theorem projectWhitelist_congr_aux (raw1 raw2 : List (String × Json.Jval)) :
    ∀ (fs : List String) (acc : List (String × Json.Jval)),
      (∀ f ∈ fs, CacheKeyBuilder.goLookup raw1 f = CacheKeyBuilder.goLookup raw2 f) →
      fs.foldl (fun acc field =>
        match CacheKeyBuilder.goLookup raw1 field with
        | some v => acc ++ [(field, v)]
        | none => acc) acc =
      fs.foldl (fun acc field =>
        match CacheKeyBuilder.goLookup raw2 field with
        | some v => acc ++ [(field, v)]
        | none => acc) acc := by
  intro fs
  induction fs with
  | nil => intro _ _; rfl
  | cons f tl ih =>
    intro acc h
    simp only [List.foldl_cons]
    rw [h f (by simp)]
    exact ih _ (fun g hg => h g (by simp [hg]))

theorem goLookup_append_single (b : List (String × Json.Jval)) (k : String) (v : Json.Jval)
    (f : String) :
    CacheKeyBuilder.goLookup (b ++ [(k, v)]) f =
      if f = k then some v else CacheKeyBuilder.goLookup b f := by
  induction b with
  | nil => simp [CacheKeyBuilder.goLookup]
  | cons x tl ih =>
    simp only [List.cons_append, CacheKeyBuilder.goLookup, List.append_eq]
    rw [ih]
    by_cases h : f = k <;> simp [h]

/-- C5: the cache-key body hash is insensitive both to the ordering of the
keys of the JSON object (two bodies that are permutations of each other,
with no duplicate keys, hash identically) and to fields outside the
whitelist (appending a non-whitelisted field such as `user_id_opaque`
leaves the hash unchanged) — for every digest function. -/
theorem cache_hash_stability (sha : String → String) :
    (∀ b1 b2 : List (String × Json.Jval), (b1.map Prod.fst).Nodup → b1.Perm b2 →
        CacheKeyBuilder.normalizeAndHashRequestBody sha b1 =
          CacheKeyBuilder.normalizeAndHashRequestBody sha b2) ∧
    (∀ (b : List (String × Json.Jval)) (k : String) (v : Json.Jval),
        k ∉ CacheKeyBuilder.semanticFields →
        CacheKeyBuilder.normalizeAndHashRequestBody sha (b ++ [(k, v)]) =
          CacheKeyBuilder.normalizeAndHashRequestBody sha b) := by
  constructor
  · intro b1 b2 hnd hp
    have hpw : CacheKeyBuilder.projectWhitelist b1 = CacheKeyBuilder.projectWhitelist b2 :=
      projectWhitelist_congr_aux b1 b2 _ [] (fun f _ => goLookup_perm hp hnd f)
    unfold CacheKeyBuilder.normalizeAndHashRequestBody
    rw [hpw]
  · intro b k v hk
    have hpw : CacheKeyBuilder.projectWhitelist (b ++ [(k, v)]) =
        CacheKeyBuilder.projectWhitelist b := by
      apply projectWhitelist_congr_aux
      intro f hf
      rw [goLookup_append_single]
      have hfk : f ≠ k := fun h => hk (h ▸ hf)
      rw [if_neg hfk]
    unfold CacheKeyBuilder.normalizeAndHashRequestBody
    rw [hpw]

/-- C5 witness: a two-field body permuted, and an extra `user_id_opaque`
field, under the identity digest. -/
theorem cache_hash_stability_witness :
    CacheKeyBuilder.normalizeAndHashRequestBody (fun s => s)
        [("model", Json.Jval.jstr "m1"), ("stream", Json.Jval.jbool false)] =
      CacheKeyBuilder.normalizeAndHashRequestBody (fun s => s)
        [("stream", Json.Jval.jbool false), ("model", Json.Jval.jstr "m1")] ∧
    CacheKeyBuilder.normalizeAndHashRequestBody (fun s => s)
        ([("model", Json.Jval.jstr "m1")] ++ [("user_id_opaque", Json.Jval.jstr "u")]) =
      CacheKeyBuilder.normalizeAndHashRequestBody (fun s => s)
        [("model", Json.Jval.jstr "m1")] :=
  ⟨(cache_hash_stability (fun s => s)).1 _ _ (by decide) (List.Perm.swap _ _ _),
   (cache_hash_stability (fun s => s)).2 _ "user_id_opaque" _ (by decide)⟩

/-- C4: a context carrying `AuthKeyID = 0` is not rejected by
`BuildCacheKey`: the Go type assertion `ctx.Value(...).(uint)` succeeds on
`uint(0)` and no zero check follows, so for a non-streaming request the
builder produces a cache key whose `AuthKeyID` is 0 — a key that the
never-invoked `ValidateCacheKey` of the same file would reject. -/
theorem buildCacheKey_zero_authkey_bug :
    ((CacheKeyBuilder.buildCacheKey (fun s => s) (some 0) Consts.StyleOpenAI
          { model := "m1", stream := false,
            raw := CacheKeyBuilder.RawBody.objectOf [("model", Json.Jval.jstr "m1")] }).map
        (fun k => k.scope.authKeyID)) = some 0 ∧
      ((CacheKeyBuilder.buildCacheKey (fun s => s) (some 0) Consts.StyleOpenAI
          { model := "m1", stream := false,
            raw := CacheKeyBuilder.RawBody.objectOf [("model", Json.Jval.jstr "m1")] }).map
        CacheKeyBuilder.validateCacheKey) = some (Except.error "AuthKeyID cannot be zero") := by
  constructor <;> rfl

/-- C6 counterexample: `ProcesserOpenAI` telemetry with 10 total tokens and
a chunk-time denominator of 0 returns TPS = +Inf, not the 0 the claim
requires of every style processor. -/
theorem processer_tps_counterexample :
    (Processors.processerOpenAITelemetry 10 1 1 5).chunkTime ≤ 0 ∧
      (Processors.processerOpenAITelemetry 10 1 1 5).tps = Processors.GoFloat.posInf ∧
      (Processors.processerOpenAITelemetry 10 1 1 5).tps ≠ Processors.GoFloat.fin 0 := by
  have hct : (Processors.processerOpenAITelemetry 10 1 1 5).chunkTime = 0 := by
    simp [Processors.processerOpenAITelemetry]
  have htps : (Processors.processerOpenAITelemetry 10 1 1 5).tps = Processors.GoFloat.posInf := by
    simp [Processors.processerOpenAITelemetry, Processors.goDiv]
  exact ⟨le_of_eq hct, htps, by rw [htps]; simp⟩

/-- C6 amended: only `ProcesserAnthropic` guards the TPS denominator — it
returns `total_tokens / chunk_time` for a positive denominator and 0 for a
denominator ≤ 0.  `ProcesserOpenAI` and `ProcesserOpenAiRes` return the
unguarded IEEE quotient: the correct ratio when the denominator is
positive, but +Inf (positive tokens) or NaN (zero tokens) when the
denominator is zero. -/
theorem processer_tps_amended (tin tout tot : Int) (firstChunk elapsed : ℚ) (size : Nat) :
    (0 < elapsed - firstChunk →
      (Processors.processerOpenAITelemetry tot firstChunk elapsed size).tps =
          Processors.GoFloat.fin ((tot : ℚ) / (elapsed - firstChunk)) ∧
        (Processors.processerOpenAiResTelemetry tot firstChunk elapsed size).tps =
          Processors.GoFloat.fin ((tot : ℚ) / (elapsed - firstChunk)) ∧
        (Processors.processerAnthropicTelemetry tin tout firstChunk elapsed size).tps =
          Processors.GoFloat.fin (((tin + tout : Int) : ℚ) / (elapsed - firstChunk))) ∧
    (elapsed - firstChunk ≤ 0 →
      (Processors.processerAnthropicTelemetry tin tout firstChunk elapsed size).tps =
        Processors.GoFloat.fin 0) ∧
    (elapsed - firstChunk = 0 → 0 < tot →
      (Processors.processerOpenAITelemetry tot firstChunk elapsed size).tps =
          Processors.GoFloat.posInf ∧
        (Processors.processerOpenAiResTelemetry tot firstChunk elapsed size).tps =
          Processors.GoFloat.posInf) ∧
    (elapsed - firstChunk = 0 → tot = 0 →
      (Processors.processerOpenAITelemetry tot firstChunk elapsed size).tps =
        Processors.GoFloat.nan) := by
  refine ⟨?_, ?_, ?_, ?_⟩
  · intro h
    have hne : elapsed - firstChunk ≠ 0 := ne_of_gt h
    refine ⟨?_, ?_, ?_⟩ <;>
      simp [Processors.processerOpenAITelemetry, Processors.processerOpenAiResTelemetry,
        Processors.processerAnthropicTelemetry, Processors.goDiv, hne, h]
  · intro h
    simp [Processors.processerAnthropicTelemetry, not_lt.mpr h]
  · intro h ht
    have hq : (0 : ℚ) < (tot : ℚ) := by exact_mod_cast ht
    constructor <;>
      simp [Processors.processerOpenAITelemetry, Processors.processerOpenAiResTelemetry,
        Processors.goDiv, h, hq]
  · intro h ht
    subst ht
    simp [Processors.processerOpenAITelemetry, Processors.goDiv, h]

/-- C6 witness: the Anthropic processor at a zero denominator returns 0. -/
theorem processer_tps_amended_witness :
    (Processors.processerAnthropicTelemetry 3 4 1 1 7).tps = Processors.GoFloat.fin 0 :=
  (processer_tps_amended 3 4 10 1 1 7).2.1 (by norm_num)

theorem splitNewlines_ne_nil (l : List Char) : Processors.splitNewlines l ≠ [] := by
  cases l with
  | nil => simp [Processors.splitNewlines]
  | cons c cs =>
    rcases h : Processors.splitNewlines cs with _ | ⟨line, rest⟩
    · simp [Processors.splitNewlines, h]
    · simp only [Processors.splitNewlines, h]
      split <;> simp

theorem splitNewlines_no_newline (l : List Char) (h : '\n' ∉ l) :
    Processors.splitNewlines l = [l] := by
  induction l with
  | nil => rfl
  | cons c cs ih =>
    have hc : c ≠ '\n' := fun hh => h (hh ▸ List.mem_cons_self c cs)
    have htail : '\n' ∉ cs := fun hh => h (List.mem_cons_of_mem c hh)
    simp only [Processors.splitNewlines]
    rw [ih htail]
    simp [hc]

theorem splitNewlines_append (pre post : List Char) (h : '\n' ∉ pre) :
    Processors.splitNewlines (pre ++ '\n' :: post) = pre :: Processors.splitNewlines post := by
  induction pre with
  | nil =>
    simp only [List.nil_append, Processors.splitNewlines]
    rcases hs : Processors.splitNewlines post with _ | ⟨line, rest⟩
    · exact absurd hs (splitNewlines_ne_nil post)
    · simp
  | cons c cs ih =>
    have hc : c ≠ '\n' := fun hh => h (hh ▸ List.mem_cons_self c cs)
    have htail : '\n' ∉ cs := fun hh => h (List.mem_cons_of_mem c hh)
    simp only [List.cons_append, Processors.splitNewlines, List.append_eq]
    rw [ih htail]
    simp [hc]

/-- C7 counterexample: a non-streaming body whose JSON spans two lines is
not recorded whole — only its first line is captured as the output
string. -/
theorem nonStream_multiline_counterexample :
    Processors.nonStreamCapturedOutput "\x7b\n\x7d" = "\x7b" ∧
      Processors.nonStreamCapturedOutput "\x7b\n\x7d" ≠ "\x7b\n\x7d" := by
  constructor <;> decide

/-- C7 amended: in the non-stream branch each processor records exactly the
first non-empty scanned line as the single captured output string (and
extracts usage only from that line): a body kept on one line is captured
whole, while a body whose JSON continues past a newline is truncated to the
part before the newline. -/
theorem nonStream_capture_first_line (pre post : String)
    (hpre : pre ≠ "") (hn : '\n' ∉ pre.toList) (hr : '\r' ∉ pre.toList) :
    Processors.nonStreamCapturedOutput (pre ++ "\n" ++ post) = pre ∧
      Processors.nonStreamCapturedOutput pre = pre := by
  have hdrop : Processors.dropTrailingCR pre.toList = pre.toList := by
    unfold Processors.dropTrailingCR
    rw [if_neg]
    intro hlast
    rcases List.mem_getLast?_eq_getLast (Option.mem_def.mpr hlast) with ⟨hne, heq⟩
    refine hr ?_
    rw [heq]
    exact List.getLast_mem hne
  have hmk : String.mk pre.toList = pre := rfl
  constructor
  · have htl : (pre ++ "\n" ++ post).toList = pre.toList ++ '\n' :: post.toList := by
      simp [String.toList, String.data_append]
    unfold Processors.nonStreamCapturedOutput Processors.scannerTokens
    rw [htl, splitNewlines_append _ _ hn]
    simp only [List.map_cons, hdrop, hmk]
    rw [List.filter_cons_of_pos (by simp [hpre])]
    rfl
  · unfold Processors.nonStreamCapturedOutput Processors.scannerTokens
    rw [splitNewlines_no_newline _ hn]
    simp only [List.map_cons, List.map_nil, hdrop, hmk]
    rw [List.filter_cons_of_pos (by simp [hpre])]
    rfl

/-- C7 witness: a single-line body is captured whole, a two-line body is
truncated to its first line. -/
theorem nonStream_capture_first_line_witness :
    Processors.nonStreamCapturedOutput ("abc" ++ "\n" ++ "xyz") = "abc" ∧
      Processors.nonStreamCapturedOutput "abc" = "abc" :=
  nonStream_capture_first_line "abc" "xyz" (by decide) (by decide) (by decide)

/-- C8 counterexample: one enabled association whose provider has a
different style: the capability filter leaves an association, so no error
is raised and the query returns a result whose weight set is empty instead
of failing with `not provider for model m1`. -/
theorem eligibility_style_counterexample :
    Eligibility.providersWithMetaByModelsName
        { models := [{ id := 1, name := "m1", maxRetry := 3, timeOut := 60,
                       ioLog := none, strategy := "" }]
          assocs := [{ id := 10, modelId := 1, providerId := 7, providerModel := "x",
                       toolCall := false, structuredOutput := false, image := false,
                       status := true, weight := 1 }]
          providers := [{ id := 7, name := "p", ptype := "anthropic" }] }
        "openai"
        { model := "m1", toolCall := false, structuredOutput := false, image := false } =
      Except.ok { assocIds := [10], weightItems := [], providerIds := [],
                  maxRetry := 3, timeOut := 60, ioLog := false, strategy := "" } := by
  rfl

theorem filter_length_eq_length_iff {α : Type} (p : α → Bool) (l : List α) :
    (l.filter p).length = l.length ↔ ∀ a ∈ l, p a = true := by
  induction l with
  | nil => simp
  | cons x tl ih =>
    by_cases hx : p x = true
    · simp [List.filter_cons, hx, ih]
    · simp only [List.filter_cons, if_neg hx, List.length_cons, List.mem_cons]
      constructor
      · intro h
        exfalso
        have := List.length_filter_le p tl
        omega
      · intro h
        exact absurd (h x (Or.inl rfl)) (by simpa using hx)

/-- C8 amended: the query does intersect the capability-filtered
associations with the providers whose type equals the style — every entry
of the weight set of a successful result stems from an enabled association
that passed the capability filter of the named model and whose provider has
the requested style — but the `not provider for model` error is raised
exactly when the capability filter alone, before the style intersection,
leaves no association: when associations survive it and none of their
providers matches the style, the query succeeds with an empty weight
set. -/
theorem eligibility_not_provider_characterization (db : Eligibility.DBState) (style : String)
    (before : Eligibility.BeforeQ) :
    (Eligibility.providersWithMetaByModelsName db style before =
        Except.error ("not provider for model " ++ before.model) ↔
      ∃ model, db.models.find? (fun m => m.name == before.model) = some model ∧
        db.assocs.filter (Eligibility.capabilityFilter before model.id) = []) ∧
    (∀ pw, Eligibility.providersWithMetaByModelsName db style before = Except.ok pw →
      ∀ iw ∈ pw.weightItems,
        ∃ m, db.models.find? (fun mm => mm.name == before.model) = some m ∧
          ∃ a ∈ db.assocs, Eligibility.capabilityFilter before m.id a = true ∧
            iw = (a.id, a.weight) ∧
            ∃ p ∈ db.providers, p.id = a.providerId ∧ p.ptype = style) := by
  constructor
  · constructor
    · intro h
      unfold Eligibility.providersWithMetaByModelsName at h
      rcases hfind : db.models.find? (fun m => m.name == before.model) with _ | model
      · rw [hfind] at h
        exfalso
        simp only [Except.error.injEq] at h
        have hlen := congrArg String.length h
        rw [String.length_append, String.length_append] at hlen
        have h1 : ("not found model " : String).length = 16 := rfl
        have h2 : ("not provider for model " : String).length = 23 := rfl
        omega
      · rw [hfind] at h
        by_cases hemp : (db.assocs.filter (Eligibility.capabilityFilter before model.id)).isEmpty = true
        · exact ⟨model, hfind, by rwa [List.isEmpty_iff] at hemp⟩
        · exfalso
          simp [hemp] at h
    · rintro ⟨model, hfind, hnil⟩
      unfold Eligibility.providersWithMetaByModelsName
      rw [hfind]
      simp [hnil]
  · intro pw hpw iw hiw
    unfold Eligibility.providersWithMetaByModelsName at hpw
    rcases hfind : db.models.find? (fun m => m.name == before.model) with _ | model
    · rw [hfind] at hpw
      exact Except.noConfusion hpw
    · rw [hfind] at hpw
      by_cases hemp : (db.assocs.filter (Eligibility.capabilityFilter before model.id)).isEmpty = true
      · simp [hemp] at hpw
      · simp only [hemp, Bool.false_eq_true, if_false] at hpw
        rw [Except.ok.injEq] at hpw
        subst hpw
        rcases List.mem_filterMap.mp hiw with ⟨a, ha, hsome⟩
        rcases List.mem_filter.mp ha with ⟨hadb, hacap⟩
        by_cases hany : ((db.providers.filter (fun p =>
            ((db.assocs.filter (Eligibility.capabilityFilter before model.id)).map
              (fun a => a.providerId)).contains p.id && p.ptype == style)).any
            (fun p => p.id == a.providerId)) = true
        · rw [if_pos hany] at hsome
          rcases List.any_eq_true.mp hany with ⟨p, hp, hpid⟩
          rcases List.mem_filter.mp hp with ⟨hpdb, hpcond⟩
          simp only [Bool.and_eq_true] at hpcond
          have hsty := hpcond.2
          refine ⟨model, hfind, a, hadb, hacap, ?_, p, hpdb, ?_, ?_⟩
          · exact (Option.some.injEq _ _ ▸ hsome).symm
          · exact (beq_iff_eq.mp hpid)
          · exact (beq_iff_eq.mp hsty)
        · rw [if_neg hany] at hsome
          exact Option.noConfusion hsome

/-- C8 witness: with no association rows at all, the query fails with the
`not provider for model` error. -/
theorem eligibility_not_provider_witness :
    Eligibility.providersWithMetaByModelsName
        { models := [{ id := 1, name := "m1", maxRetry := 3, timeOut := 60,
                       ioLog := none, strategy := "" }]
          assocs := []
          providers := [] }
        "openai"
        { model := "m1", toolCall := false, structuredOutput := false, image := false } =
      Except.error ("not provider for model " ++ "m1") :=
  (eligibility_not_provider_characterization _ "openai" _).1.mpr
    ⟨{ id := 1, name := "m1", maxRetry := 3, timeOut := 60, ioLog := none, strategy := "" },
     rfl, rfl⟩

/-- C9 counterexample: a cache holding one entry written at time 0 with a
5-nanosecond TTL, observed at time 10: `Stats` still reports one entry, but
the entry is expired, `Get` misses on it, and the number of entries `Get`
would hit is 0. -/
theorem cache_stats_counterexample :
    (Cache.statsM (Cache.setM (Cache.newMemoryCache 4) 0 "k"
        { statusCode := 200, body := "b", createdAt := 0, expiresAt := 0,
          sourceLogID := 1, shared := false } 5)).entries = 1 ∧
      Cache.liveCount (Cache.setM (Cache.newMemoryCache 4) 0 "k"
        { statusCode := 200, body := "b", createdAt := 0, expiresAt := 0,
          sourceLogID := 1, shared := false } 5) 10 = 0 ∧
      (Cache.getM (Cache.setM (Cache.newMemoryCache 4) 0 "k"
        { statusCode := 200, body := "b", createdAt := 0, expiresAt := 0,
          sourceLogID := 1, shared := false } 5) 10 "k").1 = none := by
  refine ⟨rfl, rfl, rfl⟩

/-- C9 amended: `Stats.Entries` counts every stored entry, including
expired entries that no `Get` call has purged yet; it equals the number of
entries on which `Get` would report a hit precisely when no stored entry is
expired at the observation time, and on any stored unexpired entry `Get`
does hit, leaving the entry count unchanged. -/
theorem cache_stats_entries_iff_all_live (c : Cache.MemoryCacheM) (now : Nat) :
    ((Cache.statsM c).entries = Cache.liveCount c now ↔
      ∀ kv ∈ c.data, Cache.isExpiredAt now kv.2 = false) ∧
    (∀ k v, Cache.assocGet c.data k = some v → Cache.isExpiredAt now v = false →
      (Cache.getM c now k).1.isSome = true ∧
        (Cache.statsM (Cache.getM c now k).2).entries = (Cache.statsM c).entries) := by
  constructor
  · unfold Cache.statsM Cache.liveCount
    constructor
    · intro h kv hkv
      have hall := (filter_length_eq_length_iff
        (fun kv => !Cache.isExpiredAt now kv.2) c.data).mp h.symm
      simpa using hall kv hkv
    · intro hall
      refine ((filter_length_eq_length_iff _ c.data).mpr ?_).symm
      intro kv hkv
      simpa using hall kv hkv
  · intro k v hget hexp
    constructor
    · unfold Cache.getM
      rw [hget]
      simp only [hexp, Bool.false_eq_true, if_false]
      split <;> rfl
    · unfold Cache.getM
      rw [hget]
      simp only [hexp, Bool.false_eq_true, if_false]
      split <;> rfl

/-- C9 witness: the same one-entry cache observed at time 3, before the
expiry: the entry count and the `Get`-visible count agree. -/
theorem cache_stats_entries_witness :
    (Cache.statsM (Cache.setM (Cache.newMemoryCache 4) 0 "k"
        { statusCode := 200, body := "b", createdAt := 0, expiresAt := 0,
          sourceLogID := 1, shared := false } 5)).entries =
      Cache.liveCount (Cache.setM (Cache.newMemoryCache 4) 0 "k"
        { statusCode := 200, body := "b", createdAt := 0, expiresAt := 0,
          sourceLogID := 1, shared := false } 5) 3 :=
  (cache_stats_entries_iff_all_live _ 3).1.mpr (by decide)
